import Mathlib

/-!
Shallow embedding of the availability / pricing / reservation core of the
rink-booking backend (`backend/server.js`).

Time is modelled as `Nat` milliseconds on the local clock, measured from a
local Sunday 00:00, so that the source's `Date.getDay`, `Date.getHours` and
`Date.getMinutes` become plain div/mod arithmetic.
-/

namespace RinkBooking

/-- One minute in milliseconds (`60 * 1000` in the source). -/
def minuteMs : Nat := 60 * 1000

/-- One hour in milliseconds (`60 * 60 * 1000` in the source). -/
def hourMs : Nat := 60 * 60 * 1000

/-- One day in milliseconds. -/
def dayMs : Nat := 24 * 60 * 60 * 1000

/-- `d.getDay()`: 0 = Sunday .. 6 = Saturday, for a timestamp in local ms
since a Sunday midnight. -/
def getDay (t : Nat) : Nat := t / dayMs % 7

/-- `d.getHours()` on the local clock. -/
def getHours (t : Nat) : Nat := t % dayMs / hourMs

/-- `d.getMinutes()` on the local clock. -/
def getMinutes (t : Nat) : Nat := t % hourMs / minuteMs

/-- `isWeekend(d)` from the source: Saturday or Sunday. -/
def isWeekend (t : Nat) : Bool := getDay t == 0 || getDay t == 6

/-- `rateCentsAt(date)` from the source: hourly rate in USD cents for the
local instant `t`, from the weekday/weekend band table. -/
def rateCentsAt (t : Nat) : Nat :=
  let h := getHours t
  let m := getMinutes t
  let tm := h * 60 + m
  if !isWeekend t then
    if 5 * 60 + 35 ≤ tm ∧ tm < 6 * 60 + 35 then 25000
    else if 6 * 60 + 35 ≤ tm ∧ tm < 15 * 60 + 45 then 49500
    else if 15 * 60 + 45 ≤ tm ∧ tm < 21 * 60 + 45 then 94500
    else if 21 * 60 + 45 ≤ tm ∧ tm < 22 * 60 + 45 then 49500
    else 0
  else
    if 5 * 60 + 50 ≤ tm ∧ tm < 6 * 60 + 50 then 25000
    else if 6 * 60 + 50 ≤ tm ∧ tm < 21 * 60 + 45 then 94500
    else if 21 * 60 + 45 ≤ tm ∧ tm < 22 * 60 + 45 then 49500
    else 0

/-- `Math.round(cents / 60)` for a nonnegative integer `cents`:
`⌊cents / 60 + 1 / 2⌋ = (cents + 30) / 60` in `Nat` division. -/
def roundDiv60 (cents : Nat) : Nat := (cents + 30) / 60

/-- The body of the `while (cur < end)` loop of `priceIntervalCents`: the
per-minute charge at the probe instant `cur` (`Math.round(activeRate / 60)`
when the active rate is positive, nothing otherwise). -/
def perMinuteCents (t : Nat) : Nat :=
  if 0 < rateCentsAt t then roundDiv60 (rateCentsAt t) else 0

/-- The `while (cur < end)` loop of `priceIntervalCents`, rendered by its
iteration count: the loop probes `cur`, charges `perMinuteCents cur` and
advances `cur` by one minute, so starting from `cur` it performs exactly
`⌈(end - cur) / minuteMs⌉` iterations before `cur < end` fails. -/
def priceLoop (cur : Nat) : Nat → Nat
  | 0 => 0
  | n + 1 => perMinuteCents cur + priceLoop (cur + minuteMs) n

/-- `priceIntervalCents(startISO, endISO)` from the source: 0 for inverted or
empty ranges, otherwise the per-minute summation loop over
`⌈(e - s) / minuteMs⌉` probe minutes starting at `s`. -/
def priceIntervalCents (s e : Nat) : Nat :=
  if e ≤ s then 0 else priceLoop s ((e - s + (minuteMs - 1)) / minuteMs)

/-- The `while (cur < e)` loop of `expandIntoSegments40`, rendered by its
iteration count: each iteration either cuts a full 60-minute chunk and
advances `cur` by one hour, or handles the sub-hour remainder and breaks, so
starting from `cur` the loop is entered exactly `⌈(e - cur) / hourMs⌉`
times. -/
def segLoop (cur e : Nat) : Nat → List (Nat × Nat)
  | 0 => []
  | n + 1 =>
    if cur + hourMs ≤ e then (cur, cur + hourMs) :: segLoop (cur + hourMs) e n
    else if 40 * minuteMs ≤ e - cur then [(cur, e)] else []

/-- `expandIntoSegments40(startDate, endDate)` from the source: nothing for a
total duration under 40 minutes, otherwise 60-minute blocks from the start
plus a final remainder block when the remainder is at least 40 minutes. -/
def expandIntoSegments40 (s e : Nat) : List (Nat × Nat) :=
  if e - s < 40 * minuteMs then [] else segLoop s e ((e - s + (hourMs - 1)) / hourMs)

/-- The segments form a gapless chain starting at `a`: each segment starts
where the previous one ended. -/
def chainFrom (a : Nat) : List (Nat × Nat) → Bool
  | [] => true
  | (x, y) :: rest => x == a && chainFrom y rest

/-- Every segment except the last lasts exactly one hour, and the last lasts
between 40 and 60 minutes. -/
def durationsOk : List (Nat × Nat) → Bool
  | [] => true
  | [(x, y)] => 40 * minuteMs ≤ y - x && y - x ≤ hourMs
  | (x, y) :: rest => y - x == hourMs && durationsOk rest

/-- The source derives a slot id as a truncated SHA-256 digest of the
ISO-rendered `(start, end)` pair; the collision-resistant hash is modelled as
the injective canonical pairing of the two timestamps. -/
def slotId (start «end» : Nat) : Nat × Nat := (start, «end»)

/-- Identifier type produced by `slotId`. -/
abbrev SlotId := Nat × Nat

/-- A row of the `bookings` table, as inserted by the webhook handler. -/
structure Booking where
  slot_id : SlotId
  start_ts : Nat
  end_ts : Nat
  customer_name : String
  customer_email : String
  amount_cents : Nat
  currency : String
  stripe_payment_intent : String
  deriving Repr, DecidableEq

/-- A row of the `slot_holds` table, as inserted by the checkout handler. -/
structure Hold where
  slot_id : SlotId
  start_ts : Nat
  end_ts : Nat
  customer_name : String
  customer_email : String
  expires_at : Nat
  checkout_session_id : String
  deriving Repr, DecidableEq

/-- The state of the persistence collaborator: the two tables the core reads
and writes. -/
structure DB where
  bookings : List Booking
  slot_holds : List Hold
  deriving Repr, DecidableEq

/-- `supabase.from('bookings').select('slot_id').eq('slot_id', sid).maybeSingle()`. -/
def findBooking (db : DB) (sid : SlotId) : Option Booking :=
  db.bookings.find? (fun b => b.slot_id == sid)

/-- `supabase.from('slot_holds').select('*').eq('slot_id', sid)
.gt('expires_at', now).maybeSingle()`. -/
def findActiveHold (db : DB) (sid : SlotId) (now : Nat) : Option Hold :=
  db.slot_holds.find? (fun h => h.slot_id == sid && now < h.expires_at)

/-- The booked-slot-id set read by the availability listing. -/
def bookedIds (db : DB) : List SlotId :=
  db.bookings.map (fun b => b.slot_id)

/-- The ids of holds with `expires_at > now`, read by the availability
listing. -/
def activeHoldIds (db : DB) (now : Nat) : List SlotId :=
  (db.slot_holds.filter (fun h => now < h.expires_at)).map (fun h => h.slot_id)

/-- Request body of `POST /api/create-checkout-session`. -/
structure CheckoutRequest where
  slotId : SlotId
  start : Nat
  «end» : Nat
  name : String
  email : String
  purpose : String
  deriving Repr, DecidableEq

/-- Result of `stripe.checkout.sessions.create`: the redirect handle and the
session id recorded on the hold. Modelled as an input of the handler; `none`
stands for the call throwing. -/
structure StripeSession where
  id : String
  url : String
  deriving Repr, DecidableEq

/-- HTTP outcome of the checkout handler. -/
inductive CheckoutResponse where
  /-- 409, `Slot already booked`. -/
  | conflictBooked
  /-- 409, `Slot currently on hold`. -/
  | conflictHold
  /-- 400, `Selected slot is not billable.` -/
  | notBillable
  /-- 500, `Failed to create checkout session` (payment session creation threw). -/
  | serverError
  /-- 200 with the payment session redirect handle. -/
  | success (url : String)
  deriving Repr, DecidableEq

/-- Outcome of the read phase of the checkout handler: everything up to (and
including) the payment-session call, before the single hold insert. -/
inductive CheckoutReadOutcome where
  | rejected (r : CheckoutResponse)
  | proceed (h : Hold) (url : String)
  deriving Repr, DecidableEq

/-- The read phase of `POST /api/create-checkout-session`, in source order:
booking-existence check, active-hold check, `expiresAt = now + 15 minutes`,
authoritative price of the request body's `(start, end)`, billability check,
payment-session creation; on success it carries the hold row to insert. -/
def checkoutRead (db : DB) (now : Nat) (req : CheckoutRequest)
    (stripeSession : Option StripeSession) : CheckoutReadOutcome :=
  match findBooking db req.slotId with
  | some _ => .rejected .conflictBooked
  | none =>
    match findActiveHold db req.slotId now with
    | some _ => .rejected .conflictHold
    | none =>
      let expiresAt := now + 15 * minuteMs
      let amountCents := priceIntervalCents req.start req.«end»
      if amountCents ≤ 0 then .rejected .notBillable
      else
        match stripeSession with
        | none => .rejected .serverError
        | some session =>
          .proceed
            { slot_id := req.slotId
              start_ts := req.start
              end_ts := req.«end»
              customer_name := req.name
              customer_email := req.email
              expires_at := expiresAt
              checkout_session_id := session.id }
            session.url

/-- The write phase of the checkout handler: the single
`supabase.from('slot_holds').insert(...)`, performed only on the `proceed`
outcome. -/
def checkoutWrite (db : DB) : CheckoutReadOutcome → CheckoutResponse × DB
  | .rejected r => (r, db)
  | .proceed h url => (.success url, { db with slot_holds := db.slot_holds ++ [h] })

/-- `POST /api/create-checkout-session` run in isolation: the read phase
followed immediately by the write phase. -/
def createCheckoutSession (db : DB) (now : Nat) (req : CheckoutRequest)
    (stripeSession : Option StripeSession) : CheckoutResponse × DB :=
  checkoutWrite db (checkoutRead db now req stripeSession)

/-- Two checkout calls whose read phases both run against the initial store
(the existence checks of each interleave before either insert), after which
the two write phases apply in order — the race at the insert point. -/
def racedCheckout (db : DB) (now : Nat) (reqA reqB : CheckoutRequest)
    (sA sB : Option StripeSession) : CheckoutResponse × CheckoutResponse × DB :=
  let outA := checkoutRead db now reqA sA
  let outB := checkoutRead db now reqB sB
  let resA := checkoutWrite db outA
  let resB := checkoutWrite resA.2 outB
  (resA.1, resB.1, resB.2)

/-- The `checkout.session.completed` payload the webhook handler consumes:
the metadata echoed back plus the charged amount, currency and payment
reference (`session.amount_total` and `session.currency` may be null). -/
structure ConfirmationEvent where
  slot_id : SlotId
  start : Nat
  «end» : Nat
  name : String
  email : String
  amount_total : Option Nat
  currency : Option String
  payment_intent : String
  deriving Repr, DecidableEq

/-- The state change of `POST /api/stripe/webhook` on a
`checkout.session.completed` event: insert a booking carrying the session's
`amount_total || 0` unless one already exists for `slot_id`, then delete
every hold for `slot_id`. -/
def handleCheckoutCompleted (db : DB) (ev : ConfirmationEvent) : DB :=
  let db1 :=
    match findBooking db ev.slot_id with
    | some _ => db
    | none =>
      { db with
          bookings := db.bookings ++ [({
            slot_id := ev.slot_id
            start_ts := ev.start
            end_ts := ev.«end»
            customer_name := ev.name
            customer_email := ev.email
            amount_cents := ev.amount_total.getD 0
            currency := ev.currency.getD "usd"
            stripe_payment_intent := ev.payment_intent } : Booking)] }
  { db1 with slot_holds := db1.slot_holds.filter (fun h => h.slot_id != ev.slot_id) }

/-- An entry of the published availability listing. -/
structure PricedSlot where
  id : SlotId
  title : String
  start : Nat
  «end» : Nat
  price_cents : Nat
  deriving Repr, DecidableEq

/-- The priced segment built for one expanded block in `GET /api/slots`. -/
def pricedSlotOf (b : Nat × Nat) : PricedSlot :=
  { id := slotId b.1 b.2
    title := "Available Ice"
    start := b.1
    «end» := b.2
    price_cents := priceIntervalCents b.1 b.2 }

/-- The pre-database part of `GET /api/slots`: keep calendar events ending
after `now`, expand each into segments, drop segments ending at or before
`now`, and price the rest. -/
def pricedSegments (raws : List (Nat × Nat)) (now : Nat) : List PricedSlot :=
  (raws.filter (fun r => now < r.2)).flatMap (fun r =>
    ((expandIntoSegments40 r.1 r.2).filter (fun b => now < b.2)).map pricedSlotOf)

/-- `GET /api/slots`: the priced segments, published unfiltered when the
persistence collaborator is absent, and otherwise with booked ids and
active-hold ids subtracted. -/
def listAvailable (raws : List (Nat × Nat)) (now : Nat) (db? : Option DB) :
    List PricedSlot :=
  let expanded := pricedSegments raws now
  match db? with
  | none => expanded
  | some db =>
    expanded.filter (fun s =>
      !(bookedIds db).contains s.id && !(activeHoldIds db now).contains s.id)

/-! ### Concrete fixtures used to instantiate the theorems -/

/-- Monday 09:00 local, in ms since Sunday 00:00. -/
def mon0900 : Nat := dayMs + 540 * minuteMs

/-- Monday 10:00 local. -/
def mon1000 : Nat := dayMs + 600 * minuteMs

/-- An empty persistence state. -/
def dbEmpty : DB := { bookings := [], slot_holds := [] }

/-- A checkout request for the Monday 09:00–10:00 slot. -/
def reqMon : CheckoutRequest :=
  { slotId := slotId mon0900 mon1000
    start := mon0900
    «end» := mon1000
    name := "Ada"
    email := "ada At example.com"
    purpose := "Ice Time" }

/-- A first payment session. -/
def sessA : StripeSession := { id := "cs a", url := "redirect a" }

/-- A second payment session. -/
def sessB : StripeSession := { id := "cs b", url := "redirect b" }

/-- A booking row occupying the Monday 09:00–10:00 slot. -/
def bookingMon : Booking :=
  { slot_id := slotId mon0900 mon1000
    start_ts := mon0900
    end_ts := mon1000
    customer_name := "Bob"
    customer_email := "bob At example.com"
    amount_cents := 49500
    currency := "usd"
    stripe_payment_intent := "pi 1" }

/-- A hold row on the Monday 09:00–10:00 slot expiring at t = 900000 ms. -/
def holdMon : Hold :=
  { slot_id := slotId mon0900 mon1000
    start_ts := mon0900
    end_ts := mon1000
    customer_name := "Cid"
    customer_email := "cid At example.com"
    expires_at := 900000
    checkout_session_id := "cs 0" }

/-- A payment confirmation event for the Monday 09:00–10:00 slot. -/
def evMon : ConfirmationEvent :=
  { slot_id := slotId mon0900 mon1000
    start := mon0900
    «end» := mon1000
    name := "Ada"
    email := "ada At example.com"
    amount_total := some 49500
    currency := some "usd"
    payment_intent := "pi 2" }

/-- A checkout request whose `slotId`, `start` and `end` correspond to no
segment derivable from any calendar feed (the id does not even match its own
`(start, end)` pair). -/
def reqOdd : CheckoutRequest :=
  { slotId := (1, 2)
    start := mon0900
    «end» := mon0900 + 40 * minuteMs
    name := "Eve"
    email := "eve At example.com"
    purpose := "Ice Time" }

end RinkBooking

namespace RinkBooking

/-! ## Segmenter lemmas -/

theorem segLoop_chainFrom (n : Nat) : ∀ cur e : Nat,
    chainFrom cur (segLoop cur e n) = true := by
  induction n with
  | zero => intro cur e; simp [segLoop, chainFrom]
  | succ n ih =>
    intro cur e
    simp only [segLoop]
    split
    · simp [chainFrom, ih]
    · split <;> simp [chainFrom]

theorem segLoop_durationsOk (n : Nat) : ∀ cur e : Nat,
    durationsOk (segLoop cur e n) = true := by
  induction n with
  | zero => intro cur e; simp [segLoop, durationsOk]
  | succ n ih =>
    intro cur e
    simp only [segLoop]
    split
    · rcases hrest : segLoop (cur + hourMs) e n with _ | ⟨b, rest⟩
      · simp [durationsOk, hourMs, minuteMs]
      · have := ih (cur + hourMs) e
        rw [hrest] at this
        simp [durationsOk, this]
    · rename_i hlt
      split
      · rename_i hrem
        have hle : e - cur ≤ hourMs := by omega
        simp [durationsOk, hrem, hle]
      · simp [durationsOk]

theorem segLoop_ne_nil (cur e n : Nat) (hfit : cur + hourMs ≤ e) (hn : 0 < n) :
    segLoop cur e n ≠ [] := by
  match n, hn with
  | n + 1, _ => simp [segLoop, hfit]

theorem expandIntoSegments40_short (s e : Nat) (h : e - s < 40 * minuteMs) :
    expandIntoSegments40 s e = [] := by
  simp [expandIntoSegments40, h]

theorem expandIntoSegments40_single (s e : Nat)
    (h40 : 40 * minuteMs ≤ e - s) (h60 : e - s < hourMs) :
    expandIntoSegments40 s e = [(s, e)] := by
  have hm : minuteMs = 60000 := rfl
  have hh : hourMs = 3600000 := rfl
  have hfuel : (e - s + (hourMs - 1)) / hourMs = 1 := by
    rw [hh]; rw [hm] at h40; rw [hh] at h60; omega
  have hnofit : ¬ s + hourMs ≤ e := by rw [hh]; rw [hh] at h60; omega
  rw [expandIntoSegments40, if_neg (by omega), hfuel]
  simp [segLoop, hnofit, h40]

/-- C2: `expandIntoSegments40` returns nothing for intervals shorter than 40
minutes, the whole interval as a single segment for durations in [40,60)
minutes, and for durations of at least one hour a nonempty gapless chain of
segments starting at the interval's start in which every segment but the
last lasts exactly one hour and the last lasts between 40 and 60 minutes. -/
theorem expandIntoSegments40_spec (s e : Nat) :
    (e - s < 40 * minuteMs → expandIntoSegments40 s e = []) ∧
    (40 * minuteMs ≤ e - s → e - s < hourMs → expandIntoSegments40 s e = [(s, e)]) ∧
    (hourMs ≤ e - s →
      expandIntoSegments40 s e ≠ [] ∧
      chainFrom s (expandIntoSegments40 s e) = true ∧
      durationsOk (expandIntoSegments40 s e) = true) := by
  refine ⟨expandIntoSegments40_short s e, expandIntoSegments40_single s e, ?_⟩
  intro hge
  have hm : minuteMs = 60000 := rfl
  have hh : hourMs = 3600000 := rfl
  have hguard : ¬ e - s < 40 * minuteMs := by rw [hm]; rw [hh] at hge; omega
  have hfit : s + hourMs ≤ e := by rw [hh]; rw [hh] at hge; omega
  have hfuel : 0 < (e - s + (hourMs - 1)) / hourMs := by
    rw [hh]; rw [hh] at hge; omega
  refine ⟨?_, ?_, ?_⟩
  · rw [expandIntoSegments40, if_neg hguard]
    exact segLoop_ne_nil s e _ hfit hfuel
  · rw [expandIntoSegments40, if_neg hguard]; exact segLoop_chainFrom _ s e
  · rw [expandIntoSegments40, if_neg hguard]; exact segLoop_durationsOk _ s e

/-- Concrete instances of `expandIntoSegments40_spec`: a 39-minute interval
yields nothing, a 59-minute interval yields itself, and a 100-minute
interval yields a gapless chain with the stated durations. -/
theorem expandIntoSegments40_spec_witness :
    (39 * minuteMs - 0 < 40 * minuteMs ∧ expandIntoSegments40 0 (39 * minuteMs) = []) ∧
    (40 * minuteMs ≤ 59 * minuteMs - 0 ∧ 59 * minuteMs - 0 < hourMs ∧
      expandIntoSegments40 0 (59 * minuteMs) = [(0, 59 * minuteMs)]) ∧
    (hourMs ≤ 100 * minuteMs - 0 ∧
      (expandIntoSegments40 0 (100 * minuteMs) ≠ [] ∧
        chainFrom 0 (expandIntoSegments40 0 (100 * minuteMs)) = true ∧
        durationsOk (expandIntoSegments40 0 (100 * minuteMs)) = true)) :=
  ⟨⟨by decide, (expandIntoSegments40_spec 0 (39 * minuteMs)).1 (by decide)⟩,
   ⟨by decide, by decide,
    (expandIntoSegments40_spec 0 (59 * minuteMs)).2.1 (by decide) (by decide)⟩,
   ⟨by decide, (expandIntoSegments40_spec 0 (100 * minuteMs)).2.2 (by decide)⟩⟩

/-! ## Pricing lemmas -/

theorem perMinuteCents_eq_round (t : Nat) :
    perMinuteCents t = roundDiv60 (rateCentsAt t) := by
  unfold perMinuteCents
  split
  · rfl
  · rename_i h
    have : rateCentsAt t = 0 := by omega
    simp [this, roundDiv60]

theorem priceLoop_eq_sum (n : Nat) : ∀ cur : Nat,
    priceLoop cur n = ∑ i ∈ Finset.range n, perMinuteCents (cur + i * minuteMs) := by
  induction n with
  | zero => intro cur; simp [priceLoop]
  | succ n ih =>
    intro cur
    rw [priceLoop, ih (cur + minuteMs), Finset.sum_range_succ']
    have : ∀ i : Nat, cur + (i + 1) * minuteMs = cur + minuteMs + i * minuteMs := by
      intro i; ring
    simp only [this, Nat.zero_mul, Nat.add_zero]
    omega

theorem priceLoop_add (n₁ : Nat) : ∀ n₂ cur : Nat,
    priceLoop cur (n₁ + n₂) = priceLoop cur n₁ + priceLoop (cur + n₁ * minuteMs) n₂ := by
  induction n₁ with
  | zero => intro n₂ cur; simp [priceLoop]
  | succ n₁ ih =>
    intro n₂ cur
    have hshift : n₁ + 1 + n₂ = (n₁ + n₂) + 1 := by omega
    rw [hshift, priceLoop, priceLoop, ih n₂ (cur + minuteMs)]
    have : cur + minuteMs + n₁ * minuteMs = cur + (n₁ + 1) * minuteMs := by ring
    rw [this]
    omega

theorem priceIntervalCents_eq_sum_aligned (s e : Nat) :
    priceIntervalCents (s * minuteMs) (e * minuteMs) =
      ∑ m ∈ Finset.Ico s e, roundDiv60 (rateCentsAt (m * minuteMs)) := by
  have hm : minuteMs = 60000 := rfl
  by_cases h : e ≤ s
  · rw [priceIntervalCents, if_pos (Nat.mul_le_mul_right _ h),
      Finset.Ico_eq_empty (by simpa using h), Finset.sum_empty]
  · push_neg at h
    have hguard : ¬ e * minuteMs ≤ s * minuteMs := by
      intro hc
      exact absurd (Nat.le_of_mul_le_mul_right (by simpa [Nat.mul_comm] using hc) (by rw [hm]; omega)) (by omega)
    have hfuel : (e * minuteMs - s * minuteMs + (minuteMs - 1)) / minuteMs = e - s := by
      rw [hm, ← Nat.sub_mul]
      generalize e - s = d
      omega
    rw [priceIntervalCents, if_neg hguard, hfuel, priceLoop_eq_sum,
      Finset.sum_Ico_eq_sum_range]
    refine Finset.sum_congr rfl ?_
    intro i _
    rw [perMinuteCents_eq_round, Nat.add_mul]

/-- C3: for minute-aligned timestamps (all calendar instants are whole local
minutes), `priceIntervalCents` is the sum, over every minute of the interval,
of `Math.round(hourly_rate / 60)` where the rate is looked up at that
minute's own local day and time; concretely, a Monday 09:00–10:00 interval
prices to 49500, Monday 10:00–10:40 to 33000, and Monday 21:30–22:00 to
15 · round(94500 / 60) + 15 · round(49500 / 60). -/
theorem priceIntervalCents_spec :
    (∀ s e : Nat, priceIntervalCents (s * minuteMs) (e * minuteMs) =
       ∑ m ∈ Finset.Ico s e, roundDiv60 (rateCentsAt (m * minuteMs))) ∧
    priceIntervalCents (dayMs + 540 * minuteMs) (dayMs + 600 * minuteMs) = 49500 ∧
    priceIntervalCents (dayMs + 600 * minuteMs) (dayMs + 640 * minuteMs) = 33000 ∧
    priceIntervalCents (dayMs + 1290 * minuteMs) (dayMs + 1320 * minuteMs) =
      15 * roundDiv60 94500 + 15 * roundDiv60 49500 :=
  ⟨priceIntervalCents_eq_sum_aligned, by decide, by decide, by decide⟩

/-- The one concrete input on which per-minute probing from `start` defeats
additivity: splitting one billable minute at its half. Monday 09:00 local is
`dayMs + 540 * minuteMs = 118800000` ms; the midpoint 30 seconds later is
not minute-aligned, so both halves re-probe the same minute. -/
theorem priceIntervalCents_not_additive :
    118800000 < 118830000 ∧ 118830000 < 118860000 ∧
    priceIntervalCents 118800000 118830000 + priceIntervalCents 118830000 118860000 ≠
      priceIntervalCents 118800000 118860000 := by decide

/-- C4 (amended): `priceIntervalCents` is additive at every midpoint that is
a whole number of minutes after the interval's start — in particular at
every minute-aligned midpoint of a minute-aligned interval. -/
theorem priceIntervalCents_additive (s m e : Nat) (h1 : s < m) (h2 : m < e)
    (hal : minuteMs ∣ m - s) :
    priceIntervalCents s m + priceIntervalCents m e = priceIntervalCents s e := by
  obtain ⟨k, hk⟩ := hal
  have hmm : minuteMs = 60000 := rfl
  have hm : m = s + k * minuteMs := by rw [hmm] at hk ⊢; omega
  have hguard1 : ¬ m ≤ s := by omega
  have hguard2 : ¬ e ≤ m := by omega
  have hguard3 : ¬ e ≤ s := by omega
  have hfuel1 : (m - s + (minuteMs - 1)) / minuteMs = k := by
    rw [hmm]; rw [hmm] at hm; omega
  have hfuel3 : (e - s + (minuteMs - 1)) / minuteMs =
      k + (e - m + (minuteMs - 1)) / minuteMs := by
    rw [hmm]; rw [hmm] at hm; omega
  rw [priceIntervalCents, priceIntervalCents, priceIntervalCents,
    if_neg hguard1, if_neg hguard2, if_neg hguard3, hfuel1, hfuel3,
    priceLoop_add k _ s, ← hm]

/-- Concrete instance of `priceIntervalCents_additive`: splitting Monday
09:00–10:00 at 09:30. -/
theorem priceIntervalCents_additive_witness :
    118800000 < 118800000 + 30 * minuteMs ∧ 118800000 + 30 * minuteMs < 118800000 + 60 * minuteMs ∧
    minuteMs ∣ 118800000 + 30 * minuteMs - 118800000 ∧
    priceIntervalCents 118800000 (118800000 + 30 * minuteMs) +
        priceIntervalCents (118800000 + 30 * minuteMs) (118800000 + 60 * minuteMs) =
      priceIntervalCents 118800000 (118800000 + 60 * minuteMs) :=
  ⟨by decide, by decide, by decide,
    priceIntervalCents_additive 118800000 (118800000 + 30 * minuteMs)
      (118800000 + 60 * minuteMs) (by decide) (by decide) (by decide)⟩

/-! ## Availability resolver -/

/-- C5: a slot appears in the listing exactly when it is the priced form of
a segment of some raw interval ending after `now`, the segment itself ends
after `now`, and its id is neither a booked slot id nor the id of a hold
with `expires_at > now`; with no persistence collaborator the listing is all
priced segments, unfiltered. -/
theorem listAvailable_spec (raws : List (Nat × Nat)) (now : Nat) (db : DB)
    (slot : PricedSlot) :
    (slot ∈ listAvailable raws now (some db) ↔
      ((∃ r ∈ raws, now < r.2 ∧
          ∃ b ∈ expandIntoSegments40 r.1 r.2, now < b.2 ∧ slot = pricedSlotOf b) ∧
        slot.id ∉ bookedIds db ∧ slot.id ∉ activeHoldIds db now)) ∧
    listAvailable raws now none = pricedSegments raws now := by
  constructor
  · simp only [listAvailable, pricedSegments, List.mem_filter, List.mem_flatMap,
      List.mem_map, Bool.and_eq_true, Bool.not_eq_true', List.elem_eq_mem,
      decide_eq_false_iff_not, decide_eq_true_eq]
    constructor
    · rintro ⟨⟨r, ⟨hr, hrnow⟩, b, ⟨hb, hbnow⟩, rfl⟩, hbk, hhd⟩
      exact ⟨⟨r, hr, hrnow, b, hb, hbnow, rfl⟩, hbk, hhd⟩
    · rintro ⟨⟨r, hr, hrnow, b, hb, hbnow, rfl⟩, hbk, hhd⟩
      exact ⟨⟨r, ⟨hr, hrnow⟩, b, ⟨hb, hbnow⟩, rfl⟩, hbk, hhd⟩
  · rfl

/-! ## Reservation coordinator -/

/-- C6: checkout answers the already-booked conflict when a booking exists
for the slot id, the on-hold conflict when no booking but an unexpired hold
exists, and on the success path inserts a hold for the requested slot id
expiring exactly 15 minutes after `now` and returns the payment session's
redirect handle. -/
theorem createCheckoutSession_spec (db : DB) (now : Nat) (req : CheckoutRequest)
    (sess : StripeSession) :
    ((findBooking db req.slotId).isSome →
      createCheckoutSession db now req (some sess) = (.conflictBooked, db)) ∧
    (findBooking db req.slotId = none → (findActiveHold db req.slotId now).isSome →
      createCheckoutSession db now req (some sess) = (.conflictHold, db)) ∧
    (findBooking db req.slotId = none → findActiveHold db req.slotId now = none →
      0 < priceIntervalCents req.start req.«end» →
      ∃ h : Hold, createCheckoutSession db now req (some sess) =
          (.success sess.url, { db with slot_holds := db.slot_holds ++ [h] }) ∧
        h.expires_at = now + 15 * minuteMs ∧ h.slot_id = req.slotId) := by
  refine ⟨?_, ?_, ?_⟩
  · intro hsome
    rcases hb : findBooking db req.slotId with _ | b
    · rw [hb] at hsome; simp at hsome
    · simp [createCheckoutSession, checkoutRead, hb, checkoutWrite]
  · intro hb hsome
    rcases hh : findActiveHold db req.slotId now with _ | h
    · rw [hh] at hsome; simp at hsome
    · simp [createCheckoutSession, checkoutRead, hb, hh, checkoutWrite]
  · intro hb hh hpos
    have hne : ¬ priceIntervalCents req.start req.«end» ≤ 0 := by omega
    refine ⟨{ slot_id := req.slotId
              start_ts := req.start
              end_ts := req.«end»
              customer_name := req.name
              customer_email := req.email
              expires_at := now + 15 * minuteMs
              checkout_session_id := sess.id },
      ?_, rfl, rfl⟩
    simp [createCheckoutSession, checkoutRead, hb, hh, hne, checkoutWrite]

/-- Concrete instances of `createCheckoutSession_spec`: the booked conflict,
the hold conflict, and the successful hold insert for the Monday
09:00–10:00 slot. -/
theorem createCheckoutSession_spec_witness :
    createCheckoutSession ⟨[bookingMon], []⟩ 0 reqMon (some sessA) =
        (.conflictBooked, ⟨[bookingMon], []⟩) ∧
    createCheckoutSession ⟨[], [holdMon]⟩ 0 reqMon (some sessA) =
        (.conflictHold, ⟨[], [holdMon]⟩) ∧
    ∃ h : Hold, createCheckoutSession dbEmpty 0 reqMon (some sessA) =
        (.success sessA.url, { dbEmpty with slot_holds := dbEmpty.slot_holds ++ [h] }) ∧
      h.expires_at = 0 + 15 * minuteMs ∧ h.slot_id = reqMon.slotId :=
  ⟨(createCheckoutSession_spec ⟨[bookingMon], []⟩ 0 reqMon sessA).1 (by decide),
   (createCheckoutSession_spec ⟨[], [holdMon]⟩ 0 reqMon sessA).2.1 (by decide) (by decide),
   (createCheckoutSession_spec dbEmpty 0 reqMon sessA).2.2 (by decide) (by decide) (by decide)⟩

/-- C1 fails on the code: when the existence checks of two checkout calls
for the same slot both run before either hold insert, both calls succeed and
two holds for the slot end up in the store — no conflict is reported. -/
theorem checkout_race_both_succeed :
    (racedCheckout dbEmpty 0 reqMon reqMon (some sessA) (some sessB)).1 =
      .success sessA.url ∧
    (racedCheckout dbEmpty 0 reqMon reqMon (some sessA) (some sessB)).2.1 =
      .success sessB.url ∧
    ((racedCheckout dbEmpty 0 reqMon reqMon (some sessA) (some sessB)).2.2.slot_holds.filter
        (fun h => h.slot_id == reqMon.slotId)).length = 2 := by decide

theorem checkoutRead_rejected_not_success (db : DB) (now : Nat) (req : CheckoutRequest)
    (sess : Option StripeSession) (r : CheckoutResponse)
    (hr : checkoutRead db now req sess = .rejected r) :
    ∀ url, r ≠ .success url := by
  rcases hbk : findBooking db req.slotId with _ | b
  · rcases hld : findActiveHold db req.slotId now with _ | h0
    · by_cases hle : priceIntervalCents req.start req.«end» ≤ 0
      · simp only [checkoutRead, hbk, hld, if_pos hle] at hr
        cases hr; intro url hc; cases hc
      · rcases sess with _ | s2
        · simp only [checkoutRead, hbk, hld, if_neg hle] at hr
          cases hr; intro url hc; cases hc
        · simp only [checkoutRead, hbk, hld, if_neg hle] at hr
          cases hr
    · simp only [checkoutRead, hbk, hld] at hr
      cases hr; intro url hc; cases hc
  · simp only [checkoutRead, hbk] at hr
    cases hr; intro url hc; cases hc

theorem checkoutRead_none_rejected (db : DB) (now : Nat) (req : CheckoutRequest) :
    ∃ r, checkoutRead db now req none = .rejected r := by
  rcases hbk : findBooking db req.slotId with _ | b
  · rcases hld : findActiveHold db req.slotId now with _ | h0
    · by_cases hle : priceIntervalCents req.start req.«end» ≤ 0
      · exact ⟨.notBillable, by simp only [checkoutRead, hbk, hld, if_pos hle]⟩
      · exact ⟨.serverError, by simp only [checkoutRead, hbk, hld, if_neg hle]⟩
    · exact ⟨.conflictHold, by simp only [checkoutRead, hbk, hld]⟩
  · exact ⟨.conflictBooked, by simp only [checkoutRead, hbk]⟩

theorem checkoutRead_proceed_session (db : DB) (now : Nat) (req : CheckoutRequest)
    (sess : Option StripeSession) (h : Hold) (url : String)
    (hp : checkoutRead db now req sess = .proceed h url) :
    ∃ s2, sess = some s2 ∧ url = s2.url := by
  rcases hbk : findBooking db req.slotId with _ | b
  · rcases hld : findActiveHold db req.slotId now with _ | h0
    · by_cases hle : priceIntervalCents req.start req.«end» ≤ 0
      · simp only [checkoutRead, hbk, hld, if_pos hle] at hp
        cases hp
      · rcases sess with _ | s2
        · simp only [checkoutRead, hbk, hld, if_neg hle] at hp
          cases hp
        · simp only [checkoutRead, hbk, hld, if_neg hle] at hp
          cases hp
          exact ⟨s2, rfl, rfl⟩
    · simp only [checkoutRead, hbk, hld] at hp
      cases hp
  · simp only [checkoutRead, hbk] at hp
    cases hp

/-- C10: the hold insert happens only downstream of a successful
payment-session creation — a payment-session failure, like every other
failing exit, returns with the persistence state untouched, and a success
response accounts for exactly the one appended hold. -/
theorem checkout_hold_insert_after_session (db : DB) (now : Nat)
    (req : CheckoutRequest) (sess : Option StripeSession) :
    (createCheckoutSession db now req none).2 = db ∧
    (∀ r db2, createCheckoutSession db now req sess = (r, db2) →
      (∀ url, r ≠ .success url) → db2 = db) ∧
    (∀ url db2, createCheckoutSession db now req sess = (.success url, db2) →
      ∃ s2 h, sess = some s2 ∧ url = s2.url ∧
        db2 = { db with slot_holds := db.slot_holds ++ [h] }) := by
  refine ⟨?_, ?_, ?_⟩
  · obtain ⟨r, hr⟩ := checkoutRead_none_rejected db now req
    simp [createCheckoutSession, hr, checkoutWrite]
  · intro r db2 heq hns
    rcases hro : checkoutRead db now req sess with r' | ⟨h, url⟩
    · rw [createCheckoutSession, hro] at heq
      cases heq; rfl
    · rw [createCheckoutSession, hro] at heq
      cases heq
      exact absurd rfl (hns _)
  · intro url db2 heq
    rcases hro : checkoutRead db now req sess with r' | ⟨h, url'⟩
    · rw [createCheckoutSession, hro] at heq
      cases heq
      exact absurd rfl (checkoutRead_rejected_not_success db now req sess _ hro url)
    · rw [createCheckoutSession, hro] at heq
      cases heq
      obtain ⟨s2, hs2, hurl⟩ := checkoutRead_proceed_session db now req sess h url hro
      exact ⟨s2, h, hs2, hurl, rfl⟩

/-- Concrete instances of `checkout_hold_insert_after_session`: a
payment-session failure on an otherwise bookable request leaves the store
unchanged, and a success appends one hold. -/
theorem checkout_hold_insert_after_session_witness :
    (createCheckoutSession dbEmpty 0 reqMon none).2 = dbEmpty ∧
    (createCheckoutSession dbEmpty 0 reqMon none).1 = .serverError ∧
    ∃ s2 h, (some sessA : Option StripeSession) = some s2 ∧ sessA.url = s2.url ∧
      (createCheckoutSession dbEmpty 0 reqMon (some sessA)).2 =
        { dbEmpty with slot_holds := dbEmpty.slot_holds ++ [h] } :=
  ⟨(checkout_hold_insert_after_session dbEmpty 0 reqMon none).1,
   by decide,
   (checkout_hold_insert_after_session dbEmpty 0 reqMon (some sessA)).2.2
      sessA.url (createCheckoutSession dbEmpty 0 reqMon (some sessA)).2 (by decide)⟩

/-- C8 fails on the code: the checkout path never re-derives the segment.
With an empty calendar feed (so no segment is derivable at all) and a slot
id that does not even match the request's own `(start, end)` pair, checkout
still succeeds, prices the client-supplied pair, and writes the hold with
exactly the client's values. -/
theorem checkout_trusts_client_segment :
    reqOdd.slotId ≠ slotId reqOdd.start reqOdd.«end» ∧
    pricedSegments [] 0 = [] ∧
    0 < priceIntervalCents reqOdd.start reqOdd.«end» ∧
    (createCheckoutSession dbEmpty 0 reqOdd (some sessA)).1 = .success sessA.url ∧
    (createCheckoutSession dbEmpty 0 reqOdd (some sessA)).2.slot_holds.map
        (fun h => (h.slot_id, h.start_ts, h.end_ts)) =
      [(reqOdd.slotId, reqOdd.start, reqOdd.«end»)] := by decide

/-- C9 fails in part on the code: the availability listing does not reject
non-billable segments — a Monday 02:00–03:00 calendar block, every minute of
which carries rate 0, is published with `price_cents = 0`. -/
theorem listAvailable_publishes_zero_priced :
    ∃ slot ∈ listAvailable [(dayMs + 120 * minuteMs, dayMs + 180 * minuteMs)] 0
        (some dbEmpty), slot.price_cents = 0 := by decide

/-- C9 (amended): inverted or empty ranges price to 0, and checkout rejects
a zero-priced request as a client error with the store untouched — before
any hold insert or payment-session creation; the availability listing,
however, publishes priced segments regardless of price, including price 0. -/
theorem nonbillable_rejected_spec :
    (∀ s e : Nat, e ≤ s → priceIntervalCents s e = 0) ∧
    (∀ (db : DB) (now : Nat) (req : CheckoutRequest) (sess : Option StripeSession),
      findBooking db req.slotId = none → findActiveHold db req.slotId now = none →
      priceIntervalCents req.start req.«end» = 0 →
      createCheckoutSession db now req sess = (.notBillable, db)) := by
  constructor
  · intro s e he
    simp [priceIntervalCents, he]
  · intro db now req sess hb hh hz
    simp [createCheckoutSession, checkoutRead, hb, hh, hz, checkoutWrite]

/-- Concrete instances of `nonbillable_rejected_spec`: the inverted range
(5, 3) prices to 0, and a checkout for an inverted range is answered with
the client error and no state change. -/
theorem nonbillable_rejected_spec_witness :
    priceIntervalCents 5 3 = 0 ∧
    createCheckoutSession dbEmpty 0
        { slotId := (3, 3)
          start := 5
          «end» := 3
          name := "Eve"
          email := "eve At example.com"
          purpose := "Ice Time" } (some sessA) = (.notBillable, dbEmpty) :=
  ⟨(nonbillable_rejected_spec).1 5 3 (by decide),
   (nonbillable_rejected_spec).2 dbEmpty 0
     { slotId := (3, 3)
       start := 5
       «end» := 3
       name := "Eve"
       email := "eve At example.com"
       purpose := "Ice Time" } (some sessA) (by decide) (by decide) (by decide)⟩

theorem find?_append_of_none {α : Type} (p : α → Bool) (l1 l2 : List α)
    (h : l1.find? p = none) : (l1 ++ l2).find? p = l2.find? p := by
  rw [List.find?_append, h, Option.none_or]

/-- C7: on a confirmation event for a slot with no booking yet, exactly one
booking for that slot id exists afterwards, it carries the event's confirmed
amount, every hold for the slot id is gone, and replaying the same event is
a no-op (the store is unchanged, with no error — the handler is total). -/
theorem handleCheckoutCompleted_idempotent (db : DB) (ev : ConfirmationEvent)
    (a : Nat) (hno : findBooking db ev.slot_id = none)
    (ha : ev.amount_total = some a) :
    ((handleCheckoutCompleted db ev).bookings.filter
        (fun b => b.slot_id == ev.slot_id)).length = 1 ∧
    (∀ b ∈ (handleCheckoutCompleted db ev).bookings,
      b.slot_id = ev.slot_id → b.amount_cents = a) ∧
    (handleCheckoutCompleted db ev).slot_holds.filter
        (fun h => h.slot_id == ev.slot_id) = [] ∧
    handleCheckoutCompleted (handleCheckoutCompleted db ev) ev =
      handleCheckoutCompleted db ev := by
  have hnone : ∀ b ∈ db.bookings, ¬ (b.slot_id == ev.slot_id) = true := by
    rw [findBooking, List.find?_eq_none] at hno
    exact hno
  have hfilterbk : db.bookings.filter (fun b => b.slot_id == ev.slot_id) = [] :=
    List.filter_eq_nil_iff.mpr hnone
  have h1 : handleCheckoutCompleted db ev =
      { bookings := db.bookings ++ [{
          slot_id := ev.slot_id
          start_ts := ev.start
          end_ts := ev.«end»
          customer_name := ev.name
          customer_email := ev.email
          amount_cents := ev.amount_total.getD 0
          currency := ev.currency.getD "usd"
          stripe_payment_intent := ev.payment_intent }]
        slot_holds := db.slot_holds.filter (fun h => h.slot_id != ev.slot_id) } := by
    simp only [handleCheckoutCompleted, hno]
  refine ⟨?_, ?_, ?_, ?_⟩
  · rw [h1]
    simp [List.filter_append, hfilterbk]
  · intro b hb hbid
    rw [h1] at hb
    simp only [List.mem_append, List.mem_singleton] at hb
    rcases hb with hb | rfl
    · exact absurd (by simp [hbid]) (hnone b hb)
    · simp [ha]
  · rw [h1]
    simp only [List.filter_filter]
    apply List.filter_eq_nil_iff.mpr
    intro h _
    cases hc : h.slot_id == ev.slot_id <;> simp [bne, hc]
  · rw [findBooking] at hno
    rw [h1]
    simp only [handleCheckoutCompleted, findBooking]
    rw [find?_append_of_none _ _ _ hno]
    simp [List.find?, List.filter_filter, Bool.and_self]

/-- Concrete instance of `handleCheckoutCompleted_idempotent`: confirming the
Monday 09:00–10:00 payment against a store holding only that slot's hold. -/
theorem handleCheckoutCompleted_idempotent_witness :
    ((handleCheckoutCompleted ⟨[], [holdMon]⟩ evMon).bookings.filter
        (fun b => b.slot_id == evMon.slot_id)).length = 1 ∧
    (∀ b ∈ (handleCheckoutCompleted ⟨[], [holdMon]⟩ evMon).bookings,
      b.slot_id = evMon.slot_id → b.amount_cents = 49500) ∧
    (handleCheckoutCompleted ⟨[], [holdMon]⟩ evMon).slot_holds.filter
        (fun h => h.slot_id == evMon.slot_id) = [] ∧
    handleCheckoutCompleted (handleCheckoutCompleted ⟨[], [holdMon]⟩ evMon) evMon =
      handleCheckoutCompleted ⟨[], [holdMon]⟩ evMon :=
  handleCheckoutCompleted_idempotent ⟨[], [holdMon]⟩ evMon 49500 (by decide) (by decide)

end RinkBooking
